import Mathlib

/-!
Verification of the in-process rate limiter (`/api/utils/rateLimiter.js`)
and the login-verification endpoint (`/api/auth/verify.js`).

The JavaScript module keeps a process-wide `Map` from identifier strings to
rate records.  We embed that `Map` as an association list with JavaScript
`Map` semantics: `set` overwrites the entry of an existing key in place and
appends new keys at the end, `get` returns the value of the first (unique)
matching key.  Timestamps and counters are JavaScript numbers that only ever
hold integers here, so they are embedded as `Int`.
-/

namespace RateLimiter

/-- One entry of `rateLimitStore`: `{ attempts, resetTime, firstAttempt }`. -/
structure RateRecord where
  attempts : Int
  resetTime : Int
  firstAttempt : Int
deriving DecidableEq

/-- The in-memory store, a JavaScript `Map` keyed by identifier strings. -/
abbrev Store := List (String × RateRecord)

/-- `rateLimitStore.get(identifier)` (also deciding `rateLimitStore.has`):
the value at the first matching key, if any. -/
def storeGet : Store → String → Option RateRecord
  | [], _ => none
  | (k', v') :: rest, k => if k' = k then some v' else storeGet rest k

/-- `rateLimitStore.set(identifier, v)`: overwrite the entry of an existing
key in place, or append a new entry at the end, as a JavaScript `Map` does. -/
def storeSet : Store → String → RateRecord → Store
  | [], k, v => [(k, v)]
  | (k', v') :: rest, k, v =>
      if k' = k then (k, v) :: rest else (k', v') :: storeSet rest k v

/-- The result shape of `checkRateLimit`:
`{ allowed, resetTime, attemptsLeft }`. -/
structure Decision where
  allowed : Bool
  resetTime : Int
  attemptsLeft : Int
deriving DecidableEq

/-- `checkRateLimit(identifier, windowMs, maxAttempts)` from
`/api/utils/rateLimiter.js`.  `now` stands for the `Date.now()` call at the
top of the function; the store is passed and returned explicitly.
`record.attempts++` mutates the stored record, embedded as writing the
incremented record back under the same key. -/
def checkRateLimit (store : Store) (identifier : String)
    (windowMs maxAttempts now : Int) : Decision × Store :=
  match storeGet store identifier with
  | none =>
      (⟨true, now + windowMs, maxAttempts - 1⟩,
       storeSet store identifier ⟨1, now + windowMs, now⟩)
  | some record =>
      if now ≥ record.resetTime then
        (⟨true, now + windowMs, maxAttempts - 1⟩,
         storeSet store identifier ⟨1, now + windowMs, now⟩)
      else if record.attempts < maxAttempts then
        (⟨true, record.resetTime, maxAttempts - (record.attempts + 1)⟩,
         storeSet store identifier { record with attempts := record.attempts + 1 })
      else
        (⟨false, record.resetTime, 0⟩, store)

/-- One execution of the `setInterval` sweep callback: delete every entry
whose `resetTime < now`, keep the rest untouched. -/
def sweep (store : Store) (now : Int) : Store :=
  store.filter (fun p => !decide (p.2.resetTime < now))

/-- `Math.ceil(a / b)` for integer `a` and positive integer `b`, using
`ceil (a / b) = -floor ((-a) / b)` (Lean's `Int` division floors for a
positive divisor). -/
def ceilDivI (a b : Int) : Int := -((-a) / b)

/-- `formatWaitTime(resetTime)` from `/api/utils/rateLimiter.js`; `now`
stands for its `Date.now()` call.  Note the source has no clamp at zero. -/
def formatWaitTime (resetTime now : Int) : String :=
  let seconds := ceilDivI (resetTime - now) 1000
  if seconds < 60 then
    toString seconds ++ " second" ++ (if seconds ≠ 1 then "s" else "")
  else
    let minutes := ceilDivI seconds 60
    toString minutes ++ " minute" ++ (if minutes ≠ 1 then "s" else "")

/-- The request metadata read by `getClientIP` and the login handler:
`req.headers['x-forwarded-for']`, `req.headers['x-real-ip']`,
`req.connection?.remoteAddress` (all possibly absent), the HTTP method and
the body's `username` / `password` fields. -/
structure Req where
  method : String
  xForwardedFor : Option String
  xRealIP : Option String
  remoteAddress : Option String
  username : Option String
  password : Option String

/-- JavaScript `a || b` where `a` is a possibly-undefined string: falls
through exactly when `a` is undefined or the empty string. -/
def jsOr (a : Option String) (b : String) : String :=
  match a with
  | some s => if s = "" then b else s
  | none => b

/-- JavaScript truthiness of a possibly-undefined string: `false` exactly
for `undefined` and `""`. -/
def jsTruthy : Option String → Bool
  | some s => s ≠ ""
  | none => false

/-- JavaScript `s.split(',')[0]`: the prefix of `s` before its first comma
(all of `s` when it has none). -/
def splitFirst (s : String) : String :=
  String.mk (s.data.takeWhile (fun c => c ≠ ','))

/-- JavaScript `s.trim()`: remove leading and trailing whitespace. -/
def trimStr (s : String) : String :=
  String.mk (((s.data.dropWhile Char.isWhitespace).reverse.dropWhile
    Char.isWhitespace).reverse)

/-- `getClientIP(req)` from `/api/utils/rateLimiter.js`:
`headers['x-forwarded-for']?.split(',')[0]?.trim() || headers['x-real-ip']
|| req.connection?.remoteAddress || 'unknown'`. -/
def getClientIP (req : Req) : String :=
  jsOr (req.xForwardedFor.map (fun s => trimStr (splitFirst s)))
    (jsOr req.xRealIP (jsOr req.remoteAddress "unknown"))

/-- The priority order exactly as the claim words it: the first trimmed
forwarded-for entry when the header is present and that entry is non-empty;
otherwise the `x-real-ip` header whenever it is present (even empty);
otherwise `remoteAddress` whenever present; otherwise `"unknown"`. -/
def getClientIPClaimed (req : Req) : String :=
  match req.xForwardedFor with
  | some s =>
      let f := trimStr (splitFirst s)
      if f ≠ "" then f
      else
        match req.xRealIP with
        | some r => r
        | none => match req.remoteAddress with
                  | some a => a
                  | none => "unknown"
  | none =>
      match req.xRealIP with
      | some r => r
      | none => match req.remoteAddress with
                | some a => a
                | none => "unknown"

/-- The amended priority order, matching the code: each fallback is used
only when present AND non-empty. -/
def getClientIPAmended (req : Req) : String :=
  match req.xForwardedFor with
  | some s =>
      let f := trimStr (splitFirst s)
      if f ≠ "" then f
      else jsOr req.xRealIP (jsOr req.remoteAddress "unknown")
  | none => jsOr req.xRealIP (jsOr req.remoteAddress "unknown")

/-- `LOGIN_COOLDOWN_MS = 2 * 60 * 1000` from `/api/auth/verify.js`. -/
def LOGIN_COOLDOWN_MS : Int := 2 * 60 * 1000

/-- Outcome of the `admin_users` query in `/api/auth/verify.js`:
`.single()` either errors, returns no row, or returns the admin row
(its stored password and optional role). -/
inductive DbOutcome where
  | dbError
  | noRow
  | row (password : String) (role : Option String)

/-- The observable response of the login handler: HTTP status, the JSON
body fields it may set, and whether the `admin_users` store was queried. -/
structure Resp where
  status : Int
  errorMsg : Option String
  valid : Option Bool
  reason : Option String
  retryAfter : Option Int
  username : Option String
  role : Option String
  queriedDb : Bool
deriving DecidableEq

/-- A response with only the given status and `queriedDb = false`; the
other body fields default to absent. -/
def plainResp (status : Int) : Resp :=
  ⟨status, none, none, none, none, none, none, false⟩

/-- The `/api/auth/verify.js` handler (the rate-limited version).
`db` gives the outcome of the `admin_users` query for a username;
`tCheck`, `tFmt`, `tRetry` stand for the three successive `Date.now()`
calls (inside `checkRateLimit`, inside `formatWaitTime`, and in the
`retryAfter` computation). -/
def verifyHandler (req : Req) (db : String → DbOutcome) (store : Store)
    (tCheck tFmt tRetry : Int) : Resp × Store :=
  if req.method = "OPTIONS" then (plainResp 200, store)
  else if req.method ≠ "POST" then
    ({ plainResp 405 with errorMsg := some "Method not allowed" }, store)
  else
    let clientIP := getClientIP req
    let rateLimitKey := "login_" ++ clientIP
    let rateCheck := checkRateLimit store rateLimitKey LOGIN_COOLDOWN_MS 1 tCheck
    if rateCheck.1.allowed = false then
      ({ plainResp 429 with
          errorMsg := some ("Too many login attempts. Please try again in "
            ++ formatWaitTime rateCheck.1.resetTime tFmt ++ ".")
          valid := some false
          retryAfter := some (ceilDivI (rateCheck.1.resetTime - tRetry) 1000) },
       rateCheck.2)
    else if ¬ (jsTruthy req.username ∧ jsTruthy req.password) then
      ({ plainResp 400 with
          errorMsg := some "Username and password required"
          valid := some false }, rateCheck.2)
    else
      let uname := req.username.getD ""
      match db uname with
      | DbOutcome.dbError =>
          ({ plainResp 200 with
              valid := some false
              reason := some "User not found or not active"
              queriedDb := true }, rateCheck.2)
      | DbOutcome.noRow =>
          ({ plainResp 200 with
              valid := some false
              reason := some "Invalid username"
              queriedDb := true }, rateCheck.2)
      | DbOutcome.row pw role =>
          if pw ≠ req.password.getD "" then
            ({ plainResp 200 with
                valid := some false
                reason := some "Invalid password"
                queriedDb := true }, rateCheck.2)
          else
            ({ plainResp 200 with
                valid := some true
                username := some uname
                role := some (jsOr role "admin")
                queriedDb := true }, rateCheck.2)

/-- The keys of the store, in insertion order. -/
def keys (m : Store) : List String := m.map Prod.fst

/-- A well-formed store: at most one live record per identifier, as a
JavaScript `Map` guarantees. -/
abbrev keysNodup (m : Store) : Prop := (keys m).Nodup

/-- The claimed store invariant for an identifier tracked with a fixed
`maxAttempts`: the store is a genuine map (no duplicate key) and the
identifier's record, when present, has `attempts ≤ maxAttempts`. -/
def RateInv (m : Store) (identifier : String) (maxAttempts : Int) : Prop :=
  keysNodup m ∧ ∀ r, storeGet m identifier = some r → r.attempts ≤ maxAttempts

theorem storeGet_storeSet_self (m : Store) (k : String) (v : RateRecord) :
    storeGet (storeSet m k v) k = some v := by
  induction m with
  | nil => simp [storeSet, storeGet]
  | cons p rest ih =>
      obtain ⟨k1, v1⟩ := p
      by_cases h : k1 = k
      · simp [storeSet, storeGet, h]
      · simp [storeSet, storeGet, h, ih]

theorem storeGet_storeSet_ne (m : Store) (k k2 : String) (v : RateRecord)
    (h : k2 ≠ k) : storeGet (storeSet m k v) k2 = storeGet m k2 := by
  induction m with
  | nil => simp [storeSet, storeGet, Ne.symm h]
  | cons p rest ih =>
      obtain ⟨k1, v1⟩ := p
      by_cases h1 : k1 = k
      · subst h1
        simp [storeSet, storeGet, Ne.symm h]
      · simp [storeSet, storeGet, h1, ih]

theorem keys_cons (k : String) (v : RateRecord) (rest : Store) :
    keys ((k, v) :: rest) = k :: keys rest := rfl

theorem keys_storeSet_of_mem (m : Store) (k : String) (v : RateRecord)
    (h : k ∈ keys m) : keys (storeSet m k v) = keys m := by
  induction m with
  | nil => simp [keys] at h
  | cons p rest ih =>
      obtain ⟨k1, v1⟩ := p
      by_cases h1 : k1 = k
      · simp [storeSet, keys, h1]
      · have h2 : k ∈ keys rest := by
          rw [keys_cons] at h
          rcases List.mem_cons.1 h with he | hm
          · exact absurd he.symm h1
          · exact hm
        rw [storeSet, if_neg h1, keys_cons, keys_cons, ih h2]

theorem keys_storeSet_of_not_mem (m : Store) (k : String) (v : RateRecord)
    (h : k ∉ keys m) : keys (storeSet m k v) = keys m ++ [k] := by
  induction m with
  | nil => simp [storeSet, keys]
  | cons p rest ih =>
      obtain ⟨k1, v1⟩ := p
      rw [keys_cons] at h
      have h1 : k1 ≠ k := fun he => h (List.mem_cons.2 (Or.inl he.symm))
      have h2 : k ∉ keys rest := fun hm => h (List.mem_cons.2 (Or.inr hm))
      rw [storeSet, if_neg h1, keys_cons, keys_cons, ih h2]
      rfl

theorem keysNodup_storeSet (m : Store) (k : String) (v : RateRecord)
    (h : keysNodup m) : keysNodup (storeSet m k v) := by
  by_cases hm : k ∈ keys m
  · unfold keysNodup
    rw [keys_storeSet_of_mem m k v hm]
    exact h
  · unfold keysNodup
    rw [keys_storeSet_of_not_mem m k v hm]
    simpa [List.nodup_append] using ⟨h, fun hk => hm hk⟩

theorem storeGet_eq_none_iff (m : Store) (k : String) :
    storeGet m k = none ↔ k ∉ keys m := by
  induction m with
  | nil => simp [storeGet, keys]
  | cons p rest ih =>
      obtain ⟨k1, v1⟩ := p
      rw [keys_cons]
      by_cases h1 : k1 = k
      · subst h1
        simp [storeGet]
      · simp [storeGet, h1, ih, Ne.symm h1]

theorem sweep_cons (k : String) (v : RateRecord) (rest : Store) (t : Int) :
    sweep ((k, v) :: rest) t
      = if v.resetTime < t then sweep rest t else (k, v) :: sweep rest t := by
  by_cases hexp : v.resetTime < t <;> simp [sweep, List.filter_cons, hexp]

theorem keysNodup_sweep (m : Store) (t : Int) (h : keysNodup m) :
    keysNodup (sweep m t) := by
  exact List.Nodup.sublist (List.Sublist.map Prod.fst (List.filter_sublist m)) h

theorem storeGet_sweep_char (m : Store) (t : Int) (k : String)
    (h : keysNodup m) :
    storeGet (sweep m t) k
      = (storeGet m k).bind (fun r => if r.resetTime < t then none else some r) := by
  induction m with
  | nil => simp [sweep, storeGet]
  | cons p rest ih =>
      obtain ⟨k1, v1⟩ := p
      simp only [keysNodup, keys, List.map_cons, List.nodup_cons] at h
      have ihr := ih h.2
      rw [sweep_cons]
      by_cases h1 : k1 = k
      · subst h1
        by_cases hexp : v1.resetTime < t
        · have hnone : storeGet rest k1 = none :=
            (storeGet_eq_none_iff rest k1).2 h.1
          have hsnone : storeGet (sweep rest t) k1 = none := by
            rw [ihr, hnone]
            rfl
          simp [storeGet, hexp, hsnone]
        · simp [storeGet, hexp]
      · by_cases hexp : v1.resetTime < t <;> simp [storeGet, hexp, h1, ihr]

/-- C1: with `windowMs > 0` and `maxAttempts ≥ 1`, when no record exists for
the identifier, or the existing record's window has expired (`now ≥
resetTime`), the call stores a record with `attempts = 1` and `resetTime =
now + windowMs` and returns `{allowed: true, resetTime: now + windowMs,
attemptsLeft: maxAttempts - 1}`. -/
theorem checkRateLimit_fresh_or_expired (store : Store) (identifier : String)
    (windowMs maxAttempts now : Int) (hw : 0 < windowMs) (hm : 1 ≤ maxAttempts)
    (h : storeGet store identifier = none ∨
      ∃ r, storeGet store identifier = some r ∧ now ≥ r.resetTime) :
    (∃ r2, storeGet (checkRateLimit store identifier windowMs maxAttempts now).2
        identifier = some r2 ∧ r2.attempts = 1 ∧ r2.resetTime = now + windowMs) ∧
    (checkRateLimit store identifier windowMs maxAttempts now).1
      = ⟨true, now + windowMs, maxAttempts - 1⟩ := by
  rcases h with h | ⟨r, hr, hge⟩
  · refine ⟨⟨⟨1, now + windowMs, now⟩, ?_, rfl, rfl⟩, ?_⟩ <;>
      simp [checkRateLimit, h, storeGet_storeSet_self]
  · refine ⟨⟨⟨1, now + windowMs, now⟩, ?_, rfl, rfl⟩, ?_⟩ <;>
      simp [checkRateLimit, hr, hge, storeGet_storeSet_self]

/-- Witness for C1 at a concrete input: empty store, first call admitted. -/
theorem checkRateLimit_fresh_or_expired_witness :
    (0 : Int) < 120000 ∧ (1 : Int) ≤ 1 ∧
    ((∃ r2, storeGet (checkRateLimit [] "a" 120000 1 0).2 "a" = some r2 ∧
        r2.attempts = 1 ∧ r2.resetTime = 0 + 120000) ∧
      (checkRateLimit [] "a" 120000 1 0).1 = ⟨true, 0 + 120000, 1 - 1⟩) :=
  ⟨by norm_num, by norm_num,
    checkRateLimit_fresh_or_expired [] "a" 120000 1 0 (by norm_num) (by norm_num)
      (Or.inl rfl)⟩

/-- C2: when the identifier's record has an open window (`now < resetTime`)
and `attempts ≥ maxAttempts`, the store is left untouched and the result is
`{allowed: false, resetTime: the stored resetTime, attemptsLeft: 0}`. -/
theorem checkRateLimit_denied_frozen (store : Store) (identifier : String)
    (windowMs maxAttempts now : Int) (r : RateRecord)
    (hr : storeGet store identifier = some r) (hwin : now < r.resetTime)
    (hcap : maxAttempts ≤ r.attempts) :
    (checkRateLimit store identifier windowMs maxAttempts now).2 = store ∧
    (checkRateLimit store identifier windowMs maxAttempts now).1
      = ⟨false, r.resetTime, 0⟩ := by
  have h1 : ¬ (now ≥ r.resetTime) := not_le.2 hwin
  have h2 : ¬ (r.attempts < maxAttempts) := not_lt.2 hcap
  constructor <;> simp [checkRateLimit, hr, h1, h2]

/-- Witness for C2 at a concrete input: a full window denies the call. -/
theorem checkRateLimit_denied_frozen_witness :
    storeGet [("a", (⟨1, 100, 0⟩ : RateRecord))] "a" = some ⟨1, 100, 0⟩ ∧
    (50 : Int) < 100 ∧ (1 : Int) ≤ 1 ∧
    ((checkRateLimit [("a", ⟨1, 100, 0⟩)] "a" 120000 1 50).2
        = [("a", ⟨1, 100, 0⟩)] ∧
      (checkRateLimit [("a", ⟨1, 100, 0⟩)] "a" 120000 1 50).1 = ⟨false, 100, 0⟩) :=
  ⟨rfl, by norm_num, by norm_num,
    checkRateLimit_denied_frozen [("a", ⟨1, 100, 0⟩)] "a" 120000 1 50 ⟨1, 100, 0⟩
      rfl (by norm_num) (by norm_num)⟩

/-- C3: when the identifier's record has an open window and `attempts <
maxAttempts`, the call increments `attempts` by exactly one, keeps
`resetTime`, and returns `{allowed: true, resetTime: the stored resetTime,
attemptsLeft: maxAttempts - (attempts + 1)}`; that `attemptsLeft` is one
less than the previous `maxAttempts - attempts` and is never negative. -/
theorem checkRateLimit_admitted_in_window (store : Store) (identifier : String)
    (windowMs maxAttempts now : Int) (r : RateRecord)
    (hr : storeGet store identifier = some r) (hwin : now < r.resetTime)
    (hlt : r.attempts < maxAttempts) :
    storeGet (checkRateLimit store identifier windowMs maxAttempts now).2
        identifier = some { r with attempts := r.attempts + 1 } ∧
    (checkRateLimit store identifier windowMs maxAttempts now).1
      = ⟨true, r.resetTime, maxAttempts - (r.attempts + 1)⟩ ∧
    (checkRateLimit store identifier windowMs maxAttempts now).1.attemptsLeft
      = (maxAttempts - r.attempts) - 1 ∧
    0 ≤ (checkRateLimit store identifier windowMs maxAttempts now).1.attemptsLeft := by
  have h1 : ¬ (now ≥ r.resetTime) := not_le.2 hwin
  refine ⟨?_, ?_, ?_, ?_⟩ <;>
    simp [checkRateLimit, hr, h1, hlt, storeGet_storeSet_self] <;> omega

/-- Witness for C3 at a concrete input: second admitted call of a window
of two. -/
theorem checkRateLimit_admitted_in_window_witness :
    storeGet [("a", (⟨1, 100, 0⟩ : RateRecord))] "a" = some ⟨1, 100, 0⟩ ∧
    (50 : Int) < 100 ∧ (1 : Int) < 2 ∧
    (storeGet (checkRateLimit [("a", ⟨1, 100, 0⟩)] "a" 120000 2 50).2 "a"
        = some ⟨2, 100, 0⟩ ∧
      (checkRateLimit [("a", ⟨1, 100, 0⟩)] "a" 120000 2 50).1 = ⟨true, 100, 2 - (1 + 1)⟩ ∧
      (checkRateLimit [("a", ⟨1, 100, 0⟩)] "a" 120000 2 50).1.attemptsLeft = (2 - 1) - 1 ∧
      0 ≤ (checkRateLimit [("a", ⟨1, 100, 0⟩)] "a" 120000 2 50).1.attemptsLeft) :=
  ⟨rfl, by norm_num, by norm_num,
    checkRateLimit_admitted_in_window [("a", ⟨1, 100, 0⟩)] "a" 120000 2 50
      ⟨1, 100, 0⟩ rfl (by norm_num) (by norm_num)⟩

/-- C9: with `windowMs > 0`, the decision's `resetTime` is strictly in the
future of the call's `now` in every branch, so the caller-computed wait
`ceil((resetTime - now) / 1000)` is always at least one second. -/
theorem checkRateLimit_resetTime_future (store : Store) (identifier : String)
    (windowMs maxAttempts now : Int) (hw : 0 < windowMs) :
    now < (checkRateLimit store identifier windowMs maxAttempts now).1.resetTime ∧
    1 ≤ ceilDivI
      ((checkRateLimit store identifier windowMs maxAttempts now).1.resetTime - now)
      1000 := by
  have main :
      now < (checkRateLimit store identifier windowMs maxAttempts now).1.resetTime := by
    rcases hg : storeGet store identifier with _ | r
    · simp only [checkRateLimit, hg]
      omega
    · by_cases hexp : now ≥ r.resetTime
      · simp [checkRateLimit, hg, hexp]
        omega
      · by_cases hlt : r.attempts < maxAttempts
        · simp [checkRateLimit, hg, hexp, hlt]
          omega
        · simp [checkRateLimit, hg, hexp, hlt]
          omega
  refine ⟨main, ?_⟩
  unfold ceilDivI
  omega

/-- Witness for C9 at a concrete input. -/
theorem checkRateLimit_resetTime_future_witness :
    (0 : Int) < 120000 ∧
    ((0 : Int) < (checkRateLimit [] "a" 120000 1 0).1.resetTime ∧
      1 ≤ ceilDivI ((checkRateLimit [] "a" 120000 1 0).1.resetTime - 0) 1000) :=
  ⟨by norm_num, checkRateLimit_resetTime_future [] "a" 120000 1 0 (by norm_num)⟩

/-- C10: a call to `checkRateLimit` never touches the entry of any other
identifier: for every key distinct from the call's identifier, the store
lookup is unchanged. -/
theorem checkRateLimit_frame (store : Store) (identifier : String)
    (windowMs maxAttempts now : Int) (k : String) (h : k ≠ identifier) :
    storeGet (checkRateLimit store identifier windowMs maxAttempts now).2 k
      = storeGet store k := by
  rcases hg : storeGet store identifier with _ | r
  · simp [checkRateLimit, hg, storeGet_storeSet_ne _ _ _ _ h]
  · by_cases hexp : now ≥ r.resetTime
    · simp [checkRateLimit, hg, hexp, storeGet_storeSet_ne _ _ _ _ h]
    · by_cases hlt : r.attempts < maxAttempts
      · simp [checkRateLimit, hg, hexp, hlt, storeGet_storeSet_ne _ _ _ _ h]
      · simp [checkRateLimit, hg, hexp, hlt]

/-- Witness for C10 at a concrete input: key `"b"` is untouched by a call
for `"a"`. -/
theorem checkRateLimit_frame_witness :
    "b" ≠ "a" ∧
    storeGet (checkRateLimit [("b", (⟨1, 100, 0⟩ : RateRecord))] "a" 120000 1 0).2 "b"
      = storeGet [("b", (⟨1, 100, 0⟩ : RateRecord))] "b" :=
  ⟨by decide, checkRateLimit_frame [("b", ⟨1, 100, 0⟩)] "a" 120000 1 0 "b" (by decide)⟩

/-- C4: the store invariant — a genuine map (at most one record per
identifier) whose record for the tracked identifier never has `attempts`
above `maxAttempts` — is preserved by every `checkRateLimit` call that
passes that same `maxAttempts ≥ 1` and by every sweep execution. -/
theorem rateLimit_invariant_preserved (m : Store) (identifier : String)
    (windowMs maxAttempts now tSweep : Int) (hm : 1 ≤ maxAttempts)
    (h : RateInv m identifier maxAttempts) :
    RateInv (checkRateLimit m identifier windowMs maxAttempts now).2
        identifier maxAttempts ∧
    RateInv (sweep m tSweep) identifier maxAttempts := by
  obtain ⟨hnd, hcap⟩ := h
  constructor
  · rcases hg : storeGet m identifier with _ | r
    · refine ⟨?_, ?_⟩
      · simp only [checkRateLimit, hg]
        exact keysNodup_storeSet m identifier ⟨1, now + windowMs, now⟩ hnd
      · intro r2 hr2
        simp only [checkRateLimit, hg, storeGet_storeSet_self,
          Option.some.injEq] at hr2
        rw [← hr2]
        exact hm
    · by_cases hexp : now ≥ r.resetTime
      · refine ⟨?_, ?_⟩
        · simp only [checkRateLimit, hg, if_pos hexp]
          exact keysNodup_storeSet m identifier ⟨1, now + windowMs, now⟩ hnd
        · intro r2 hr2
          simp only [checkRateLimit, hg, if_pos hexp, storeGet_storeSet_self,
            Option.some.injEq] at hr2
          rw [← hr2]
          exact hm
      · by_cases hlt : r.attempts < maxAttempts
        · refine ⟨?_, ?_⟩
          · simp only [checkRateLimit, hg, if_neg hexp, if_pos hlt]
            exact keysNodup_storeSet m identifier _ hnd
          · intro r2 hr2
            simp only [checkRateLimit, hg, if_neg hexp, if_pos hlt,
              storeGet_storeSet_self, Option.some.injEq] at hr2
            rw [← hr2]
            simp
            omega
        · refine ⟨?_, ?_⟩
          · simp only [checkRateLimit, hg, if_neg hexp, if_neg hlt]
            exact hnd
          · intro r2 hr2
            simp only [checkRateLimit, hg, if_neg hexp, if_neg hlt] at hr2
            have he : r = r2 := Option.some.inj hr2
            rw [← he]
            exact hcap r hg
  · refine ⟨keysNodup_sweep m tSweep hnd, ?_⟩
    intro r hr
    rw [storeGet_sweep_char m tSweep identifier hnd] at hr
    rcases hg : storeGet m identifier with _ | r0
    · rw [hg] at hr
      cases hr
    · rw [hg] at hr
      by_cases hexp : r0.resetTime < tSweep
      · rw [Option.some_bind, if_pos hexp] at hr
        cases hr
      · rw [Option.some_bind, if_neg hexp] at hr
        replace hr := Option.some.inj hr
        rw [← hr]
        exact hcap r0 hg

/-- Witness for C4 at a concrete input: a one-record store with a full
window satisfies the invariant, and one call plus one sweep preserve it. -/
theorem rateLimit_invariant_preserved_witness :
    (1 : Int) ≤ 1 ∧
    RateInv [("a", (⟨1, 100, 0⟩ : RateRecord))] "a" 1 ∧
    (RateInv (checkRateLimit [("a", ⟨1, 100, 0⟩)] "a" 120000 1 50).2 "a" 1 ∧
      RateInv (sweep [("a", ⟨1, 100, 0⟩)] 200) "a" 1) :=
  have hinv : RateInv [("a", (⟨1, 100, 0⟩ : RateRecord))] "a" 1 :=
    ⟨by decide, fun r hr => by
      have h2 : (⟨1, 100, 0⟩ : RateRecord) = r := Option.some.inj hr
      rw [← h2]⟩
  ⟨le_refl 1, hinv,
    rateLimit_invariant_preserved [("a", ⟨1, 100, 0⟩)] "a" 120000 1 50 200
      (le_refl 1) hinv⟩

/-- C6: one sweep execution deletes every record whose `resetTime` is
before the sweep's `now` and returns unchanged every record whose
`resetTime` is still in the future. -/
theorem sweep_deletes_expired_keeps_live (m : Store) (t : Int) (k : String)
    (r : RateRecord) (hnd : keysNodup m) (hr : storeGet m k = some r) :
    (r.resetTime < t → storeGet (sweep m t) k = none) ∧
    (t < r.resetTime → storeGet (sweep m t) k = some r) := by
  refine ⟨fun h1 => ?_, fun h1 => ?_⟩
  · rw [storeGet_sweep_char m t k hnd, hr]
    simp [h1]
  · rw [storeGet_sweep_char m t k hnd, hr]
    have h2 : ¬ (r.resetTime < t) := by omega
    simp [h2]

/-- Witness for C6 at a concrete input: at time 200 an entry that expired
at 100 is swept while an entry live until 300 stays. -/
theorem sweep_deletes_expired_keeps_live_witness :
    keysNodup [("a", (⟨1, 100, 0⟩ : RateRecord)), ("b", ⟨1, 300, 0⟩)] ∧
    storeGet [("a", (⟨1, 100, 0⟩ : RateRecord)), ("b", ⟨1, 300, 0⟩)] "a"
      = some ⟨1, 100, 0⟩ ∧
    (((⟨1, 100, 0⟩ : RateRecord).resetTime < 200 →
        storeGet (sweep [("a", ⟨1, 100, 0⟩), ("b", ⟨1, 300, 0⟩)] 200) "a" = none) ∧
      ((200 : Int) < (⟨1, 100, 0⟩ : RateRecord).resetTime →
        storeGet (sweep [("a", ⟨1, 100, 0⟩), ("b", ⟨1, 300, 0⟩)] 200) "a"
          = some ⟨1, 100, 0⟩)) :=
  ⟨by decide, rfl,
    sweep_deletes_expired_keeps_live [("a", ⟨1, 100, 0⟩), ("b", ⟨1, 300, 0⟩)]
      200 "a" ⟨1, 100, 0⟩ (by decide) rfl⟩

/-- C5 counterexample: the claim says any `resetTime` at or before `now`
renders as "0 seconds", but the source has no clamp — one full second in
the past renders a negative amount. -/
theorem formatWaitTime_clamp_counterexample :
    formatWaitTime 0 1000 = "-1 seconds" ∧ formatWaitTime 0 1000 ≠ "0 seconds" := by
  constructor <;> decide

/-- C5 (amended): `formatWaitTime` computes `seconds = ceil((resetTime -
now) / 1000)` and renders "`N second(s)`" when `seconds < 60` and
"`M minute(s)`" with `M = ceil(seconds / 60)` otherwise; 30000ms in the
future yields "30 seconds" and 150000ms yields "3 minutes"; it renders
"0 seconds" only when `seconds` computes to 0, that is when `resetTime` is
at most `now` but less than one full second in the past — there is no
clamp, and an earlier `resetTime` renders a negative number. -/
theorem formatWaitTime_spec (resetTime now : Int) :
    (∀ s, s = ceilDivI (resetTime - now) 1000 → s < 60 →
      formatWaitTime resetTime now
        = toString s ++ " second" ++ (if s ≠ 1 then "s" else "")) ∧
    (∀ s, s = ceilDivI (resetTime - now) 1000 → 60 ≤ s →
      formatWaitTime resetTime now
        = toString (ceilDivI s 60) ++ " minute"
          ++ (if ceilDivI s 60 ≠ 1 then "s" else "")) ∧
    formatWaitTime (now + 30000) now = "30 seconds" ∧
    formatWaitTime (now + 150000) now = "3 minutes" ∧
    (now - 1000 < resetTime → resetTime ≤ now →
      formatWaitTime resetTime now = "0 seconds") := by
  refine ⟨?_, ?_, ?_, ?_, ?_⟩
  · intro s hs hlt
    subst hs
    unfold formatWaitTime
    rw [if_pos hlt]
  · intro s hs hge
    subst hs
    unfold formatWaitTime
    rw [if_neg (not_lt.2 hge)]
  · have e1 : now + 30000 - now = (30000 : Int) := by ring
    unfold formatWaitTime
    rw [e1]
    decide
  · have e1 : now + 150000 - now = (150000 : Int) := by ring
    unfold formatWaitTime
    rw [e1]
    decide
  · intro h1 h2
    have hs : ceilDivI (resetTime - now) 1000 = 0 := by
      unfold ceilDivI
      omega
    unfold formatWaitTime
    rw [hs]
    decide

/-- Witness for C5 at concrete inputs: a reset half a second ago renders
"0 seconds" and a reset 150000ms ahead renders "3 minutes". -/
theorem formatWaitTime_spec_witness :
    formatWaitTime 0 500 = "0 seconds" ∧ formatWaitTime (0 + 150000) 0 = "3 minutes" :=
  ⟨(formatWaitTime_spec 0 500).2.2.2.2 (by norm_num) (by norm_num),
    (formatWaitTime_spec 0 0).2.2.2.1⟩

/-- C7 counterexample: with no forwarded-for header, an `x-real-ip` header
that is present but empty, and no `remoteAddress`, the claim's priority
order returns the empty `x-real-ip` value, but the code's `||` chain falls
through empty strings and returns "unknown". -/
theorem getClientIP_empty_header_counterexample :
    getClientIP ⟨"POST", none, some "", none, none, none⟩ = "unknown" ∧
    getClientIPClaimed ⟨"POST", none, some "", none, none, none⟩ = "" ∧
    getClientIP ⟨"POST", none, some "", none, none, none⟩
      ≠ getClientIPClaimed ⟨"POST", none, some "", none, none, none⟩ := by
  refine ⟨by decide, by decide, by decide⟩

/-- C7 (amended): `getClientIP` never fails and always returns a string,
following the priority order — first trimmed forwarded-for entry when
present and non-empty, else the `x-real-ip` header when present and
non-empty, else `remoteAddress` when present and non-empty, else the
literal "unknown". -/
theorem getClientIP_priority (req : Req) :
    getClientIP req = getClientIPAmended req := by
  rcases req with ⟨method, xff, xri, ra, u, p⟩
  cases xff with
  | none => rfl
  | some s =>
      by_cases h : trimStr (splitFirst s) = "" <;>
        simp [getClientIP, getClientIPAmended, jsOr, h]

/-- C8: on a POST request the login handler consults `checkRateLimit` with
key `"login_" ++ clientIP`, a 120000ms window and `maxAttempts = 1`; when
that check denies, it responds 429 with a wait message built from
`formatWaitTime`, a `retryAfter` of `ceil((resetTime - now) / 1000)`
seconds, and performs no query of the admin-user store. -/
theorem verifyHandler_rate_limited (req : Req) (db : String → DbOutcome)
    (store : Store) (tCheck tFmt tRetry : Int)
    (hmeth : req.method = "POST")
    (hd : (checkRateLimit store ("login_" ++ getClientIP req) 120000 1
      tCheck).1.allowed = false) :
    (verifyHandler req db store tCheck tFmt tRetry).1.status = 429 ∧
    (verifyHandler req db store tCheck tFmt tRetry).1.errorMsg
      = some ("Too many login attempts. Please try again in "
        ++ formatWaitTime
          (checkRateLimit store ("login_" ++ getClientIP req) 120000 1
            tCheck).1.resetTime tFmt ++ ".") ∧
    (verifyHandler req db store tCheck tFmt tRetry).1.retryAfter
      = some (ceilDivI
        ((checkRateLimit store ("login_" ++ getClientIP req) 120000 1
          tCheck).1.resetTime - tRetry) 1000) ∧
    (verifyHandler req db store tCheck tFmt tRetry).1.queriedDb = false ∧
    (verifyHandler req db store tCheck tFmt tRetry).2
      = (checkRateLimit store ("login_" ++ getClientIP req) 120000 1 tCheck).2 := by
  have hc : LOGIN_COOLDOWN_MS = (120000 : Int) := by norm_num [LOGIN_COOLDOWN_MS]
  simp only [verifyHandler, hmeth, hc, hd]
  norm_num [plainResp]
  rw [if_neg (by decide : ¬ (("POST" : String) = "OPTIONS"))]
  exact ⟨rfl, rfl, rfl, rfl, rfl⟩

/-- Witness for C8 at a concrete input: with the key `"login_unknown"`
already holding a full one-attempt window, a POST request is answered 429
without a database query. -/
theorem verifyHandler_rate_limited_witness :
    (⟨"POST", none, none, none, some "u", some "p"⟩ : Req).method = "POST" ∧
    (checkRateLimit [("login_unknown", (⟨1, 120000, 0⟩ : RateRecord))]
      ("login_" ++ getClientIP ⟨"POST", none, none, none, some "u", some "p"⟩)
      120000 1 1).1.allowed = false ∧
    ((verifyHandler ⟨"POST", none, none, none, some "u", some "p"⟩
        (fun _ => DbOutcome.dbError) [("login_unknown", ⟨1, 120000, 0⟩)]
        1 2 3).1.status = 429 ∧
      (verifyHandler ⟨"POST", none, none, none, some "u", some "p"⟩
        (fun _ => DbOutcome.dbError) [("login_unknown", ⟨1, 120000, 0⟩)]
        1 2 3).1.errorMsg
        = some ("Too many login attempts. Please try again in "
          ++ formatWaitTime
            (checkRateLimit [("login_unknown", ⟨1, 120000, 0⟩)]
              ("login_" ++ getClientIP ⟨"POST", none, none, none, some "u", some "p"⟩)
              120000 1 1).1.resetTime 2 ++ ".") ∧
      (verifyHandler ⟨"POST", none, none, none, some "u", some "p"⟩
        (fun _ => DbOutcome.dbError) [("login_unknown", ⟨1, 120000, 0⟩)]
        1 2 3).1.retryAfter
        = some (ceilDivI
          ((checkRateLimit [("login_unknown", ⟨1, 120000, 0⟩)]
            ("login_" ++ getClientIP ⟨"POST", none, none, none, some "u", some "p"⟩)
            120000 1 1).1.resetTime - 3) 1000) ∧
      (verifyHandler ⟨"POST", none, none, none, some "u", some "p"⟩
        (fun _ => DbOutcome.dbError) [("login_unknown", ⟨1, 120000, 0⟩)]
        1 2 3).1.queriedDb = false ∧
      (verifyHandler ⟨"POST", none, none, none, some "u", some "p"⟩
        (fun _ => DbOutcome.dbError) [("login_unknown", ⟨1, 120000, 0⟩)]
        1 2 3).2
        = (checkRateLimit [("login_unknown", ⟨1, 120000, 0⟩)]
          ("login_" ++ getClientIP ⟨"POST", none, none, none, some "u", some "p"⟩)
          120000 1 1).2) :=
  ⟨rfl, by decide,
    verifyHandler_rate_limited ⟨"POST", none, none, none, some "u", some "p"⟩
      (fun _ => DbOutcome.dbError) [("login_unknown", ⟨1, 120000, 0⟩)]
      1 2 3 rfl (by decide)⟩

end RateLimiter
